import Mathlib

/-!
Verification of the field-detection, label-matching and form-traversal core of
the jobfinder repository.

The definitions below are a shallow embedding of
`backend/app/divselection.py` (field extraction and classification) and
`backend/app/agents/async_form_filler_agent.py` (label matching, button
bucketing, single-page fill and the multi-step traversal loop).
External effects (Playwright DOM queries, the LLM agent run, mouse input)
are modelled as oracle data supplied to the pure functions; everything the
Python code computes from those inputs is embedded directly.
-/

namespace JobFinder

/-! ### Python string primitives

`strIn needle haystack` is Python's `needle in haystack` on strings:
substring occurrence (an empty needle occurs in every string). -/

def leadMatch : List Char → List Char → Bool
  | [], _ => true
  | _ :: _, [] => false
  | a :: as, b :: bs => a == b && leadMatch as bs

def subOccurs (needle : List Char) : List Char → Bool
  | [] => leadMatch needle []
  | c :: rest => leadMatch needle (c :: rest) || subOccurs needle rest

def strIn (needle haystack : String) : Bool :=
  subOccurs needle.data haystack.data

/-- Python's `str.split()` and `str.strip()` whitespace set (ASCII part). -/
def pyIsSpace (c : Char) : Bool :=
  c = ' ' || c = '\t' || c = '\n' || c = '\r' || c = '\x0b' || c = '\x0c'

/-- Python `str.lower()` (the inputs handled here are ASCII, where
`Char.toLower` coincides with Python's lowering). -/
def pyLower (s : String) : String :=
  ⟨s.data.map Char.toLower⟩

/-- Python `str.strip()`: drop whitespace from both ends. -/
def pyStrip (s : String) : String :=
  ⟨((s.data.dropWhile pyIsSpace).reverse.dropWhile pyIsSpace).reverse⟩

/-- Python `s.replace(c, "")` for a one-character pattern. -/
def dropAllChar (c : Char) (s : String) : String :=
  ⟨s.data.filter (fun d => d ≠ c)⟩

/-- Python `s.replace(a, b)` for one-character pattern and replacement. -/
def mapCharTo (a b : Char) (s : String) : String :=
  ⟨s.data.map (fun d => if d = a then b else d)⟩

/-- Python `str.split()`: maximal runs of non-whitespace characters. -/
def splitWsAux : List Char → List Char → List String
  | [], cur => if cur.isEmpty then [] else [⟨cur.reverse⟩]
  | c :: rest, cur =>
    if pyIsSpace c then
      if cur.isEmpty then splitWsAux rest []
      else ⟨cur.reverse⟩ :: splitWsAux rest []
    else splitWsAux rest (c :: cur)

def splitWs (s : String) : List String :=
  splitWsAux s.data []

/-- Python `sep.join(xs)`. -/
def joinSep (sep : List Char) : List (List Char) → List Char
  | [] => []
  | [x] => x
  | x :: y :: rest => x ++ sep ++ joinSep sep (y :: rest)

def pyJoin (sep : String) (xs : List String) : String :=
  ⟨joinSep sep.data (xs.map String.data)⟩

instance {ε α : Type} [DecidableEq ε] [DecidableEq α] : DecidableEq (Except ε α) :=
  fun x y =>
    match x, y with
    | .error a, .error b =>
      if h : a = b then .isTrue (by rw [h]) else .isFalse (by simp [h])
    | .ok a, .ok b =>
      if h : a = b then .isTrue (by rw [h]) else .isFalse (by simp [h])
    | .error _, .ok _ => .isFalse (by simp)
    | .ok _, .error _ => .isFalse (by simp)

/-! ### Field types (divselection.py, `class FieldType(Enum)`) -/

inductive FieldType where
  | text | email | phone | name | file | textarea | select
  | checkbox | radio | url | date | password | button | submit | unknown
  deriving DecidableEq, Repr

/-- `FIELD_KEYWORDS` (divselection.py): ordered keyword groups; Python dict
iteration order is insertion order, so the group order is fixed. -/
def FIELD_KEYWORDS : List (FieldType × List String) :=
  [ (.name, ["name", "first", "last", "full", "firstname", "lastname", "fullname"]),
    (.email, ["email", "e-mail", "mail"]),
    (.phone, ["phone", "tel", "telephone", "mobile", "cell"]),
    (.file, ["resume", "cv", "upload", "file", "attachment", "document"]),
    (.url, ["linkedin", "portfolio", "website", "github", "url", "link"]),
    (.date, ["date", "start", "available", "availability"]),
    (.submit, ["submit", "send", "apply", "next", "continue", "proceed", "finish", "complete"]),
    (.button, ["button", "btn", "click", "action"]) ]

/-- The attribute record produced by `_get_element_attributes` (divselection.py):
every key is always present, with `''`/`false` defaults filled in by the JS. -/
structure RawAttrs where
  id : String
  name : String
  type : String
  placeholder : String
  required : Bool
  ariaLabel : String
  className : String
  tagName : String
  deriving DecidableEq, Repr

/-- `_classify_field_type`, step 1: the direct `type_mapping` dict lookup. -/
def typeMapping : String → Option FieldType
  | "email" => some .email
  | "tel" => some .phone
  | "file" => some .file
  | "url" => some .url
  | "date" => some .date
  | "checkbox" => some .checkbox
  | "radio" => some .radio
  | "password" => some .password
  | "submit" => some .submit
  | "button" => some .button
  | _ => none

/-- `_classify_field_type`, step 2: the searchable string
`" ".join([name, id, placeholder, aria-label, class]).lower()`. -/
def searchableAttrs (a : RawAttrs) : String :=
  pyLower (pyJoin " " [a.name, a.id, a.placeholder, a.ariaLabel, a.className])

/-- The `for field_type, keywords in FIELD_KEYWORDS.items()` loop with early
return: first group with any keyword occurring in `searchable` wins. -/
def firstKeywordMatch : List (FieldType × List String) → String → Option FieldType
  | [], _ => none
  | (ft, kws) :: rest, s =>
    if kws.any (fun kw => strIn kw s) then some ft else firstKeywordMatch rest s

/-- `DivSelector._classify_field_type` (divselection.py lines 242-286). -/
def classify_field_type (inputType : String) (attrs : RawAttrs) : FieldType :=
  match typeMapping inputType with
  | some ft => ft
  | none =>
    match firstKeywordMatch FIELD_KEYWORDS (searchableAttrs attrs) with
    | some ft => ft
    | none => if inputType = "text" then .text else .unknown

/-- `DivSelector._classify_button_type` (divselection.py lines 288-316):
`buttonText` is the awaited `el.textContent || el.value || ''`. -/
def classify_button_type (buttonText : String) (attrs : RawAttrs) : FieldType :=
  let searchable :=
    pyLower (pyJoin " " [attrs.name, attrs.id, attrs.className, attrs.ariaLabel, buttonText])
  if (FIELD_KEYWORDS.lookup .submit).getD [] |>.any (fun kw => strIn kw searchable) then
    .submit
  else
    .button

/-! ### Form fields and DOM extraction (divselection.py, `find_fields`) -/

/-- Viewport geometry of an element (`element.bounding_box()`); Playwright
returns pixel floats, only carried through here, so modelled as integers. -/
structure Box where
  x : Int
  y : Int
  width : Int
  height : Int
  deriving DecidableEq, Repr

/-- `FormField` dataclass (divselection.py lines 110-132).
The dataclass has no `is_next_button` / `is_final_submit` members, but the
agent code probes for them dynamically with `hasattr`; they are modelled as
`Option Bool` (`none` = attribute absent, which is what every field built by
`find_fields` carries). -/
structure FormField where
  element_id : String
  field_type : FieldType
  label : String
  name : String
  placeholder : String
  required : Bool
  selector : String
  bounding_box : Box
  is_next_button : Option Bool := none
  is_final_submit : Option Bool := none
  deriving DecidableEq, Repr

/-- One DOM element handle as seen through the awaited Playwright primitives
used in `find_fields`: each primitive either yields a value or raises (the
error string).  `textContent` is `el.textContent || el.value || ''` (used
for button labels and by `_classify_button_type`); `labelChain` is the
result of the `_find_label_for_element` JS chain (already `or ""`-defaulted);
`boundingBox` is `none` when Playwright returns no box. -/
structure RawElement where
  isVisible : Except String Bool
  attrs : Except String RawAttrs
  textContent : Except String String
  labelChain : Except String String
  boundingBox : Except String (Option Box)
  deriving Repr

/-- The label resolution of lines 398-404: for buttons and submit/button
inputs, the element's own text content (stripped) is preferred; the
`_find_label_for_element` chain is awaited only when it is empty
(`button_text.strip() or await ...` short-circuits). -/
def resolveLabel (e : RawElement) (attrs : RawAttrs) : Except String String :=
  if attrs.tagName = "button" || attrs.type = "submit" || attrs.type = "button" then
    match e.textContent with
    | .error err => .error err
    | .ok btnText =>
      if pyStrip btnText ≠ "" then .ok (pyStrip btnText) else e.labelChain
  else
    e.labelChain

/-- The field-type decision of lines 411-426. -/
def resolveFieldType (e : RawElement) (attrs : RawAttrs) : Except String FieldType :=
  if attrs.tagName = "textarea" then .ok .textarea
  else if attrs.tagName = "select" then .ok .select
  else if attrs.tagName = "button" then
    match e.textContent with
    | .error err => .error err
    | .ok btnText => .ok (classify_button_type btnText attrs)
  else if attrs.type = "submit" || attrs.type = "button" then
    match e.textContent with
    | .error err => .error err
    | .ok btnText => .ok (classify_button_type btnText attrs)
  else .ok (classify_field_type attrs.type attrs)

/-- The `FormField(...)` construction of lines 428-453: `element_id` is the
DOM id, or the synthetic `field_{i}` when the id is empty (Python
`element_id or f"field_{i}"`); the unique selector falls back from id to
name to a positional selector. -/
def mkFormField (sel : String) (i : Nat) (attrs : RawAttrs) (label : String)
    (fieldType : FieldType) (box : Box) : FormField :=
  { element_id := if attrs.id ≠ "" then attrs.id else "field_" ++ toString i
    field_type := fieldType
    label := label
    name := attrs.name
    placeholder := attrs.placeholder
    required := attrs.required
    selector :=
      if attrs.id ≠ "" then "#" ++ attrs.id
      else if attrs.name ≠ "" then
        attrs.tagName ++ "[name=\x27" ++ attrs.name ++ "\x27]"
      else sel ++ ":nth-of-type(" ++ toString (i + 1) ++ ")"
    bounding_box := box }

/-- The body of the `for i, element in enumerate(elements)` loop of
`find_fields` (divselection.py lines 389-455): `sel` is the CSS selector
string of the enclosing loop, `i` the enumeration index.  Returns
`.ok none` when the element is skipped (invisible, or no bounding box),
`.ok (some f)` when a field record is emitted, and `.error e` when any
awaited primitive raises (the first raise wins, as in the `try` body). -/
def processElement (sel : String) (i : Nat) (e : RawElement) :
    Except String (Option FormField) :=
  match e.isVisible with
  | .error err => .error err
  | .ok vis =>
    if !vis then .ok none
    else
      match e.attrs with
      | .error err => .error err
      | .ok attrs =>
        match resolveLabel e attrs with
        | .error err => .error err
        | .ok label =>
          match e.boundingBox with
          | .error err => .error err
          | .ok none => .ok none
          | .ok (some box) =>
            match resolveFieldType e attrs with
            | .error err => .error err
            | .ok fieldType => .ok (some (mkFormField sel i attrs label fieldType box))

/-- The per-selector element loop of `find_fields`: `try` the body for each
element, `except: continue` (the failing element is skipped, accumulated
fields are kept, the scan moves on). -/
def scanFrom (sel : String) (i : Nat) (elems : List RawElement)
    (acc : List FormField) : List FormField :=
  match elems with
  | [] => acc
  | e :: rest =>
    match processElement sel i e with
    | .error _ => scanFrom sel (i + 1) rest acc
    | .ok none => scanFrom sel (i + 1) rest acc
    | .ok (some f) => scanFrom sel (i + 1) rest (acc ++ [f])

/-- `DivSelector.find_fields` (divselection.py lines 363-462): the page is
the oracle answer to the `query_selector_all` calls, one entry per CSS
selector in the `selectors` list; `detected_fields` starts empty and
accumulates across selectors. -/
def find_fields (page : List (String × List RawElement)) : List FormField :=
  page.foldl (fun acc p => scanFrom p.1 0 p.2 acc) []

/-! ### Label matching (async_form_filler_agent.py, `fill_form_fields`
lines 269-324): the per-field scoring loop over the data dictionary. -/

/-- `s.replace("'", "").replace("-", " ").replace("_", " ")` — applied to
the already-lowercased label/key. -/
def pyNormalize (s : String) : String :=
  mapCharTo '_' ' ' (mapCharTo '-' ' ' (dropAllChar '\x27' s))

/-- `[w for w in s.split() if len(w) > 2]`. -/
def pyWords (s : String) : List String :=
  (splitWs s).filter (fun w => w.length > 2)

/-- The score given to one data key by the `for key, val in data.items()`
loop body (the if/elif chain, lines 285-319).  The float thresholds
`len * 0.7` and `len * 0.5` are embedded as the rational comparisons
`10*matching ≥ 7*len` and `2*matching ≥ len`, which agree with the Python
float comparisons for every list length. -/
def matchingWordCount (keyWords labelWords : List String) : Nat :=
  (keyWords.filter (fun kw => labelWords.any (fun flw => strIn kw flw || strIn flw kw))).length

def scoreChain (labelLower labelNorm : String) (labelWords : List String)
    (fieldName fieldId : String) (keyLower keyNorm : String)
    (keyWords : List String) : Nat :=
  if keyLower = labelLower then 100
  else if keyNorm = labelNorm then 95
  else if fieldName ≠ "" ∧ keyLower = pyLower fieldName then 80
  else if keyLower = pyLower fieldId then 70
  else if strIn keyLower labelLower || strIn labelLower keyLower then 60
  else if keyWords ≠ [] ∧
      keyWords.all (fun kw => labelWords.any (fun w => strIn kw w || strIn w kw)) then 55
  else if labelWords ≠ [] ∧
      labelWords.all (fun flw => keyWords.any (fun w => strIn flw w || strIn w flw)) then 55
  else if keyWords ≠ [] ∧ labelWords ≠ [] then
    if 10 * matchingWordCount keyWords labelWords ≥ 7 * keyWords.length then 50
    else if 2 * matchingWordCount keyWords labelWords ≥ keyWords.length then 45
    else 0
  else if keyWords.any (fun w => w.length > 3 && strIn w labelLower) then 40
  else if labelWords.any (fun w => w.length > 3 && strIn w keyLower) then 40
  else if keyWords.any (fun kw => labelWords.any (fun flw => kw = flw)) then 35
  else 0

def scoreKey (labelLower labelNorm : String) (labelWords : List String)
    (fieldName fieldId : String) (key : String) : Nat :=
  scoreChain labelLower labelNorm labelWords fieldName fieldId
    (pyLower key) (pyNormalize (pyLower key)) (pyWords (pyNormalize (pyLower key)))

/-- Score of one key against a field, with the label-side preprocessing of
lines 260-277 (`field_label_lower`, `field_label_normalized`,
`field_label_words`) applied. -/
def matchScore (fieldLabel fieldName fieldId key : String) : Nat :=
  let labelLower := pyLower fieldLabel
  let labelNorm := pyNormalize labelLower
  scoreKey labelLower labelNorm (pyWords labelNorm) fieldName fieldId key

/-- The best-match scan (lines 271-324): left-to-right fold over the data
dictionary keeping `(best_match_key, best_match_value, best_score)`,
updating only on `score > best_score`. -/
def bestStep (fieldLabel fieldName fieldId : String)
    (best : Option String × Option String × Nat) (kv : String × String) :
    Option String × Option String × Nat :=
  let score := matchScore fieldLabel fieldName fieldId kv.1
  if best.2.2 < score then (some kv.1, some kv.2, score) else best

def bestMatch (fieldLabel fieldName fieldId : String)
    (data : List (String × String)) : Option String × Option String × Nat :=
  data.foldl (bestStep fieldLabel fieldName fieldId) (none, none, 0)

/-- The set of values the scoring chain can produce (0 = no tier fired). -/
def scoreSet : List Nat := [0, 35, 40, 45, 50, 55, 60, 70, 80, 95, 100]

/-! ### Button bucketing and single-page fill
(async_form_filler_agent.py, `fill_form_fields`) -/

/-- `next_keywords` (line 234). -/
def nextKeywords : List String := ["next", "continue", "proceed", "forward", "step"]

/-- `final_keywords` (line 235). -/
def finalKeywords : List String := ["submit", "send", "apply", "finish", "complete"]

/-- Any next-indicator keyword occurs in the lowercased label or name. -/
def hasNextKeyword (f : FormField) : Bool :=
  nextKeywords.any (fun kw => strIn kw (pyLower f.label) || strIn kw (pyLower f.name))

/-- Any final-indicator keyword occurs in the lowercased label or name. -/
def hasFinalKeyword (f : FormField) : Bool :=
  finalKeywords.any (fun kw => strIn kw (pyLower f.label) || strIn kw (pyLower f.name))

inductive FieldBucket where
  | nextBtn | finalBtn | otherBtn | inputFld
  deriving DecidableEq, Repr

/-- The decision taken for one field by the separation loop
(lines 221-241): flag branches first (`hasattr` + truthiness, i.e. the
`Option Bool` being `some true`), then the keyword fallback; buttons
matching neither keyword set land in no bucket (`otherBtn`); everything
non-button is an input field. -/
def bucketOf (f : FormField) : FieldBucket :=
  if f.field_type = .submit ∨ f.field_type = .button then
    if f.is_next_button = some true then .nextBtn
    else if f.is_final_submit = some true then .finalBtn
    else if hasNextKeyword f then .nextBtn
    else if hasFinalKeyword f then .finalBtn
    else .otherBtn
  else .inputFld

/-- One pass of the `for field in fields` separation loop, appending to
`(input_fields, next_buttons, final_submit_buttons)`. -/
def separateStep (acc : List FormField × List FormField × List FormField)
    (f : FormField) : List FormField × List FormField × List FormField :=
  match bucketOf f with
  | .inputFld => (acc.1 ++ [f], acc.2.1, acc.2.2)
  | .nextBtn => (acc.1, acc.2.1 ++ [f], acc.2.2)
  | .finalBtn => (acc.1, acc.2.1, acc.2.2 ++ [f])
  | .otherBtn => acc

/-- The whole separation loop (lines 216-241). -/
def separateFields (fields : List FormField) :
    List FormField × List FormField × List FormField :=
  fields.foldl separateStep ([], [], [])

/-- Result dict of one `fill_form_fields` call.  The early "no input
fields" return and the exception return carry no `output` key (`none`). -/
structure FillResult where
  success : Bool
  filled_fields : List String
  failed_fields : List String
  errors : List String
  output : Option String
  deriving DecidableEq, Repr

/-- Python `str(data.keys())`, e.g. `dict_keys(['firstname', 'email'])`
(repr escaping of quote-containing keys is not modelled). -/
def pyStrKeys (data : List (String × String)) : String :=
  "dict_keys([" ++
    pyJoin ", " (data.map (fun kv => "\x27" ++ kv.1 ++ "\x27")) ++ "])"

/-- `AsyncFormFillerAgent.fill_form_fields` (lines 186-646), with the LLM
agent run modelled as the oracle `agent : Except String String` — either the
raised exception's message or the returned `output` string.  The per-field
prompt text (`field_descriptions`) is built one entry per input field and is
consumed only by the agent, so the `if not field_descriptions` early return
is embedded as the emptiness test on `input_fields`; the label matching of
lines 269-330 feeds only that prompt text (it is `bestMatch` above). -/
def fill_form_fields (fields : List FormField) (data : List (String × String))
    (agent : Except String String) : FillResult :=
  let sep := separateFields fields
  let input_fields := sep.1
  if input_fields.isEmpty then
    { success := false
      filled_fields := []
      failed_fields := input_fields.map (fun f => f.element_id)
      errors := ["No input fields found on the page"]
      output := none }
  else
    match agent with
    | .error e =>
      { success := false
        filled_fields := []
        failed_fields := fields.map (fun f => f.element_id)
        errors := ["Agent execution failed: " ++ e]
        output := none }
    | .ok output =>
      -- lines 620-629: decide per field whether it counts as filled
      let outLower := pyLower output
      let keysStr := pyStrKeys data
      let part := fields.foldl
        (fun acc f =>
          if strIn f.element_id outLower || strIn "success" outLower ||
              strIn f.element_id keysStr then
            (acc.1 ++ [f.element_id], acc.2)
          else
            (acc.1, acc.2 ++ [f.element_id]))
        ([], [])
      let filled :=
        if part.1.isEmpty && part.2.isEmpty then fields.map (fun f => f.element_id)
        else part.1
      { success := decide (0 < filled.length) && decide (part.2.length = 0)
        filled_fields := filled
        failed_fields := part.2
        errors := []
        output := some output }

/-! ### Multi-step traversal (async_form_filler_agent.py,
`fill_form_from_url`, lines 648-1147) -/

/-- What the external world supplies at one traversal step: the fields the
fresh `find_fields` scan returns on the current page, and the agent outcome
for the fill of that page.  URL/title/hash change detection (lines 706-762)
only logs and never affects the returned result, so it is not carried. -/
structure StepData where
  fields : List FormField
  agent : Except String String

/-- Result dict of a full `fill_form_from_url` run.  The step-1
"no form fields" early return (lines 818-823) carries no `steps_processed`
key, hence the `Option`. -/
structure RunResult where
  success : Bool
  filled_fields : List String
  failed_fields : List String
  errors : List String
  steps_processed : Option Nat
  deriving DecidableEq, Repr

/-- The error appended at line 1138. -/
def maxStepsMsg (maxSteps : Nat) : String :=
  s!"Reached maximum steps ({maxSteps}). Form may have more steps."

/-- The code after the `while` loop (lines 1137-1147): append the
step-limit notice when `step >= max_steps`, then return the accumulated
lists with `success = len(filled) > 0 and len(failed) == 0`. -/
def finishRun (maxSteps step : Nat) (filled failed errors : List String) :
    RunResult :=
  let errors := if maxSteps ≤ step then errors ++ [maxStepsMsg maxSteps] else errors
  { success := decide (0 < filled.length) && decide (failed.length = 0)
    filled_fields := filled
    failed_fields := failed
    errors := errors
    steps_processed := some step }

/-- The `while step < max_steps` loop, as fuel recursion with the invariant
`fuel + step = max_steps`.  Each pass increments `step`, rescans
(`env (step+1)` is the oracle for that scan and that page's fill):
zero fields on step 1 → early failure return; zero fields later → break;
otherwise fill and accumulate; a non-empty `next_buttons` (the hasattr
filter of line 829) → click next, URL workflow, `continue`; otherwise —
final submit present or no buttons at all — break (lines 1129-1135). -/
def runSteps (env : Nat → StepData) (data : List (String × String))
    (maxSteps : Nat) :
    Nat → Nat → List String → List String → List String → RunResult
  | 0, step, filled, failed, errors => finishRun maxSteps step filled failed errors
  | fuel + 1, step, filled, failed, errors =>
    let s := step + 1
    let d := env s
    if d.fields.isEmpty then
      if s = 1 then
        { success := false
          filled_fields := []
          failed_fields := []
          errors := ["No form fields found on the page"]
          steps_processed := none }
      else
        finishRun maxSteps s filled failed errors
    else
      let nextButtons := d.fields.filter (fun f => f.is_next_button = some true)
      let r := fill_form_fields d.fields data d.agent
      let filled := filled ++ r.filled_fields
      let failed := failed ++ r.failed_fields
      let errors := errors ++ r.errors
      if !nextButtons.isEmpty then
        runSteps env data maxSteps fuel s filled failed errors
      else
        finishRun maxSteps s filled failed errors

/-- `AsyncFormFillerAgent.fill_form_from_url`: `step = 0`, empty
accumulators, at most `max_steps` loop passes. -/
def fill_form_from_url (env : Nat → StepData) (data : List (String × String))
    (maxSteps : Nat) : RunResult :=
  runSteps env data maxSteps maxSteps 0 [] [] []

/-! ### Concrete elements and environments used to exercise the model -/

/-- An attribute record with every textual attribute empty. -/
def emptyAttrs : RawAttrs :=
  { id := "", name := "", type := "", placeholder := "", required := false,
    ariaLabel := "", className := "", tagName := "input" }

/-- A visible email input with an empty DOM id but a non-empty `name`. -/
def attrsNameOnly : RawAttrs :=
  { id := "", name := "email", type := "email", placeholder := "",
    required := false, ariaLabel := "", className := "", tagName := "input" }

/-- The element carrying `attrsNameOnly`, fully well-behaved. -/
def elemNameOnly : RawElement :=
  { isVisible := .ok true, attrs := .ok attrsNameOnly, textContent := .ok "",
    labelChain := .ok "Email", boundingBox := .ok (some ⟨1, 2, 3, 4⟩) }

/-- An element whose visibility probe raises (e.g. a detached node). -/
def elemDetached : RawElement :=
  { isVisible := .error "detached", attrs := .ok attrsNameOnly,
    textContent := .ok "", labelChain := .ok "", boundingBox := .ok none }

/-- A visible `<button>` whose text is "Next ". -/
def elemNextButton : RawElement :=
  { isVisible := .ok true
    attrs := .ok { id := "nextbtn", name := "", type := "submit",
                   placeholder := "", required := false, ariaLabel := "",
                   className := "", tagName := "button" }
    textContent := .ok "Next "
    labelChain := .ok ""
    boundingBox := .ok (some ⟨5, 6, 7, 8⟩) }

/-- A one-selector page containing just the next button. -/
def pageNextButton : List (String × List RawElement) :=
  [("button", [elemNextButton])]

/-- The field record `find_fields` emits for `elemNextButton`. -/
def scannedNextButton : FormField :=
  { element_id := "nextbtn", field_type := .submit, label := "Next",
    name := "", placeholder := "", required := false, selector := "#nextbtn",
    bounding_box := ⟨5, 6, 7, 8⟩ }

/-- An input field record as matched and filled on a page. -/
def emailField : FormField :=
  { element_id := "field_0", field_type := .email, label := "Email",
    name := "email", placeholder := "", required := false, selector := "#e",
    bounding_box := ⟨0, 0, 1, 1⟩ }

/-- A button record carrying the dynamic `is_next_button = True` attribute,
so that the traversal's flag filter keeps looping. -/
def flaggedNextButton : FormField :=
  { scannedNextButton with is_next_button := some true }

/-- An environment in which every scan finds a flagged next button: the
traversal keeps clicking "next" until the step cap stops it. -/
def envLoop : Nat → StepData := fun _ => ⟨[flaggedNextButton], .ok "success"⟩

/-- An environment in which every scan finds nothing. -/
def envEmpty : Nat → StepData := fun _ => ⟨[], .ok ""⟩

/-- An environment with one page of fields, then nothing. -/
def envOnePage : Nat → StepData := fun s =>
  if s = 1 then ⟨[emailField, flaggedNextButton], .ok "success"⟩ else ⟨[], .ok ""⟩

/-! ## Helper lemmas -/

theorem firstKeywordMatch_eq_none (l : List (FieldType × List String)) (s : String)
    (h : ∀ p ∈ l, ∀ kw ∈ p.2, strIn kw s = false) :
    firstKeywordMatch l s = none := by
  induction l with
  | nil => rfl
  | cons p rest ih =>
    have hany : p.2.any (fun kw => strIn kw s) = false := by
      simp only [List.any_eq_false]
      intro kw hkw
      simp [h p (List.mem_cons_self p rest) kw hkw]
    simp only [firstKeywordMatch, hany, Bool.false_eq_true, if_false]
    exact ih fun q hq => h q (List.mem_cons_of_mem p hq)

theorem ite_mem_scoreSet (c : Prop) [Decidable c] (a b : Nat)
    (ha : a ∈ scoreSet) (hb : b ∈ scoreSet) : (if c then a else b) ∈ scoreSet := by
  split
  · exact ha
  · exact hb

theorem scoreChain_mem_scoreSet (ll ln : String) (lw : List String)
    (fn fid kl kn : String) (kws : List String) :
    scoreChain ll ln lw fn fid kl kn kws ∈ scoreSet := by
  unfold scoreChain
  repeat
    first
    | decide
    | apply ite_mem_scoreSet

theorem scoreKey_mem_scoreSet (ll ln : String) (lw : List String)
    (fn fid key : String) : scoreKey ll ln lw fn fid key ∈ scoreSet :=
  scoreChain_mem_scoreSet ll ln lw fn fid _ _ _

theorem matchScore_mem_scoreSet (fieldLabel fn fid key : String) :
    matchScore fieldLabel fn fid key ∈ scoreSet :=
  scoreKey_mem_scoreSet _ _ _ _ _ _

theorem scoreSet_zero_or_ge : ∀ n ∈ scoreSet, n = 0 ∨ 35 ≤ n := by decide

theorem foldl_bestStep_le (f n i : String) (data : List (String × String)) :
    ∀ best, best.2.2 ≤ (data.foldl (bestStep f n i) best).2.2 := by
  induction data with
  | nil => intro best; simp
  | cons kv rest ih =>
    intro best
    simp only [List.foldl_cons]
    refine le_trans ?_ (ih (bestStep f n i best kv))
    simp only [bestStep]
    split
    · exact Nat.le_of_lt (by assumption)
    · exact le_rfl

theorem foldl_bestStep_zero (f n i : String) (data : List (String × String)) :
    ∀ best, (data.foldl (bestStep f n i) best).2.2 = 0 →
      data.foldl (bestStep f n i) best = best := by
  induction data with
  | nil => intro best _; rfl
  | cons kv rest ih =>
    intro best h
    simp only [List.foldl_cons] at h ⊢
    by_cases hlt : best.2.2 < matchScore f n i kv.1
    · exfalso
      have h1 : (bestStep f n i best kv).2.2 = matchScore f n i kv.1 := by
        simp only [bestStep]
        simp [hlt]
      have h2 := foldl_bestStep_le f n i rest (bestStep f n i best kv)
      rw [h, h1] at h2
      omega
    · have hstep : bestStep f n i best kv = best := by
        simp only [bestStep]
        simp [hlt]
      rw [hstep] at h ⊢
      exact ih best h

theorem foldl_bestStep_mem (f n i : String) (data : List (String × String)) :
    ∀ best, best.2.2 ∈ scoreSet →
      (data.foldl (bestStep f n i) best).2.2 ∈ scoreSet := by
  induction data with
  | nil => intro best h; simpa
  | cons kv rest ih =>
    intro best h
    simp only [List.foldl_cons]
    apply ih
    simp only [bestStep]
    split
    · exact matchScore_mem_scoreSet f n i kv.1
    · exact h

/-! ## Claims -/

/-- C2: every direct-mapped input type (`email`, `tel`, `file`, `url`,
`date`, `checkbox`, `radio`, `password`, `submit`, `button`) is classified
to its mapped `FieldType` regardless of the attributes; and when the input
type has no direct mapping and no keyword of any group occurs in the
concatenated lowercase attributes, classification yields `TEXT` for input
type `"text"` and `UNKNOWN` otherwise. -/
theorem classify_direct_precedence_and_fallback :
    (∀ a : RawAttrs,
      classify_field_type "email" a = .email ∧
      classify_field_type "tel" a = .phone ∧
      classify_field_type "file" a = .file ∧
      classify_field_type "url" a = .url ∧
      classify_field_type "date" a = .date ∧
      classify_field_type "checkbox" a = .checkbox ∧
      classify_field_type "radio" a = .radio ∧
      classify_field_type "password" a = .password ∧
      classify_field_type "submit" a = .submit ∧
      classify_field_type "button" a = .button) ∧
    (∀ (t : String) (a : RawAttrs),
      typeMapping t = none →
      (∀ p ∈ FIELD_KEYWORDS, ∀ kw ∈ p.2, strIn kw (searchableAttrs a) = false) →
      classify_field_type t a = if t = "text" then .text else .unknown) := by
  constructor
  · intro a
    exact ⟨rfl, rfl, rfl, rfl, rfl, rfl, rfl, rfl, rfl, rfl⟩
  · intro t a hmap hkw
    unfold classify_field_type
    rw [hmap, firstKeywordMatch_eq_none _ _ hkw]

/-- Witness for C2: a type with no direct mapping and all-empty attributes
is classified `UNKNOWN`; the direct `email` mapping holds on the same
attributes. -/
theorem classify_direct_precedence_and_fallback_witness :
    classify_field_type "month" emptyAttrs = .unknown ∧
    classify_field_type "email" emptyAttrs = .email := by
  constructor
  · have h := classify_direct_precedence_and_fallback.2 "month" emptyAttrs
      rfl (by decide)
    simpa using h
  · exact (classify_direct_precedence_and_fallback.1 emptyAttrs).1

/-- C5 counterexample: for label `"First Name"` and dictionary
`{"firstname": "John"}` (empty DOM name, element id `"field_0"`), the
matcher's best score is 55, not the claimed 95: the normalization keeps
spaces (`"first name"`) and only turns hyphens/underscores into spaces, so
`"firstname"` is not normalized-equal to `"first name"`; the match fires in
the word-containment tier instead. -/
theorem firstname_label_score_not_95 :
    (bestMatch "First Name" "" "field_0" [("firstname", "John")]).2.2 = 55 ∧
    (bestMatch "First Name" "" "field_0" [("firstname", "John")]).2.2 ≠ 95 := by
  constructor <;> decide

/-- C5 amended: for label `"First Name"` and dictionary
`{"firstname": "John"}`, the matcher returns matched key `"firstname"`,
matched value `"John"`, with best score 55 (the all-key-words-contained
tier), not a normalized-equality score of 95. -/
theorem firstname_label_match_score_55 :
    bestMatch "First Name" "" "field_0" [("firstname", "John")] =
      (some "firstname", some "John", 55) := by
  decide

/-- C6: when no data key earns a positive score for a label, the matcher
returns `(None, None, 0)`; conversely a returned score of 0 forces both
matched key and matched value to be `None`, because every tier that fires
scores at least 35 and only strictly greater scores replace the running
best. -/
theorem matcher_score_zero_means_no_key (fieldLabel fieldName fieldId : String)
    (data : List (String × String)) :
    ((∀ kv ∈ data, matchScore fieldLabel fieldName fieldId kv.1 = 0) →
      bestMatch fieldLabel fieldName fieldId data = (none, none, 0)) ∧
    ((bestMatch fieldLabel fieldName fieldId data).2.2 = 0 →
      (bestMatch fieldLabel fieldName fieldId data).1 = none ∧
      (bestMatch fieldLabel fieldName fieldId data).2.1 = none) ∧
    (∀ key, matchScore fieldLabel fieldName fieldId key = 0 ∨
      35 ≤ matchScore fieldLabel fieldName fieldId key) := by
  refine ⟨?_, ?_, ?_⟩
  · intro h
    unfold bestMatch
    induction data with
    | nil => rfl
    | cons kv rest ih =>
      have h0 : matchScore fieldLabel fieldName fieldId kv.1 = 0 :=
        h kv (List.mem_cons_self kv rest)
      have hstep :
          bestStep fieldLabel fieldName fieldId (none, none, 0) kv = (none, none, 0) := by
        simp only [bestStep]
        simp [h0]
      simp only [List.foldl_cons, hstep]
      exact ih fun x hx => h x (List.mem_cons_of_mem _ hx)
  · intro h
    have hfix := foldl_bestStep_zero fieldLabel fieldName fieldId data (none, none, 0) h
    unfold bestMatch at h ⊢
    rw [hfix]
    exact ⟨rfl, rfl⟩
  · intro key
    exact scoreSet_zero_or_ge _ (matchScore_mem_scoreSet fieldLabel fieldName fieldId key)

/-- Witness for C6: the dictionary `{"zzz": "1"}` offers no tier match for
label `"Quantity"`, so the matcher returns `(None, None, 0)`. -/
theorem matcher_score_zero_means_no_key_witness :
    bestMatch "Quantity" "" "field_9" [("zzz", "1")] = (none, none, 0) :=
  (matcher_score_zero_means_no_key "Quantity" "" "field_9" [("zzz", "1")]).1
    (by decide)

/-- C10 (implicit): besides the documented label tiers, the scoring chain
awards 80 when the key case-insensitively equals the DOM `name` attribute
and 70 when it equals the element id — both checked after the exact and
normalized tiers and before the substring tier — and every score the chain
or the best-match fold can return lies in
`{0, 35, 40, 45, 50, 55, 60, 70, 80, 95, 100}`. -/
theorem matcher_name_id_tiers_and_score_range :
    (∀ (ll ln : String) (lw : List String) (fieldName fieldId key : String),
      pyLower key ≠ ll →
      pyNormalize (pyLower key) ≠ ln →
      fieldName ≠ "" → pyLower key = pyLower fieldName →
      scoreKey ll ln lw fieldName fieldId key = 80) ∧
    (∀ (ll ln : String) (lw : List String) (fieldName fieldId key : String),
      pyLower key ≠ ll →
      pyNormalize (pyLower key) ≠ ln →
      ¬(fieldName ≠ "" ∧ pyLower key = pyLower fieldName) →
      pyLower key = pyLower fieldId →
      scoreKey ll ln lw fieldName fieldId key = 70) ∧
    (∀ (ll ln : String) (lw : List String) (fieldName fieldId key : String),
      scoreKey ll ln lw fieldName fieldId key ∈ scoreSet) ∧
    (∀ (fieldLabel fieldName fieldId : String) (data : List (String × String)),
      (bestMatch fieldLabel fieldName fieldId data).2.2 ∈ scoreSet) := by
  refine ⟨?_, ?_, ?_, ?_⟩
  · intro ll ln lw fieldName fieldId key h1 h2 h3 h4
    unfold scoreKey scoreChain
    rw [if_neg h1, if_neg h2, if_pos ⟨h3, h4⟩]
  · intro ll ln lw fieldName fieldId key h1 h2 h3 h4
    unfold scoreKey scoreChain
    rw [if_neg h1, if_neg h2, if_neg h3, if_pos h4]
  · intro ll ln lw fieldName fieldId key
    exact scoreKey_mem_scoreSet ll ln lw fieldName fieldId key
  · intro fieldLabel fieldName fieldId data
    exact foldl_bestStep_mem fieldLabel fieldName fieldId data (none, none, 0) (by decide)

/-- Witness for C10: the name tier fires at score 80 for key `"ADDR"`
against DOM name `"addr"`, the id tier at score 70 for key `"field_7"`
against element id `"Field_7"`, and a concrete full-matcher score lies in
the documented score set. -/
theorem matcher_name_id_tiers_witness :
    scoreKey "full address" "full address" ["full", "address"] "addr" "x" "ADDR" = 80 ∧
    scoreKey "your code" "your code" ["your", "code"] "" "Field_7" "field_7" = 70 ∧
    (bestMatch "First Name" "" "field_0" [("firstname", "John")]).2.2 ∈ scoreSet := by
  refine ⟨?_, ?_, ?_⟩
  · exact matcher_name_id_tiers_and_score_range.1 "full address" "full address"
      ["full", "address"] "addr" "x" "ADDR" (by decide) (by decide) (by decide) (by decide)
  · exact matcher_name_id_tiers_and_score_range.2.1 "your code" "your code"
      ["your", "code"] "" "Field_7" "field_7" (by decide) (by decide) (by decide) (by decide)
  · exact matcher_name_id_tiers_and_score_range.2.2.2 "First Name" "" "field_0"
      [("firstname", "John")]

theorem processElement_ok_some (sel : String) (i : Nat) (e : RawElement) (f : FormField)
    (h : processElement sel i e = .ok (some f)) :
    ∃ a label ft box, e.attrs = .ok a ∧ f = mkFormField sel i a label ft box := by
  unfold processElement at h
  repeat' split at h
  all_goals simp_all
  all_goals exact ⟨_, _, _, h.symm⟩

theorem scanFrom_skip_error (sel : String) (bad : RawElement)
    (post : List RawElement) (msg : String) :
    ∀ (pre : List RawElement) (i : Nat) (acc : List FormField),
      processElement sel (i + pre.length) bad = .error msg →
      scanFrom sel i (pre ++ bad :: post) acc =
        scanFrom sel (i + pre.length + 1) post (scanFrom sel i pre acc) := by
  intro pre
  induction pre with
  | nil =>
    intro i acc h
    simp only [List.length_nil, Nat.add_zero] at h ⊢
    simp [scanFrom, h]
  | cons p rest ih =>
    intro i acc h
    have h' : processElement sel (i + 1 + rest.length) bad = .error msg := by
      have harith : i + 1 + rest.length = i + (p :: rest).length := by
        simp [List.length_cons]
        omega
      rw [harith]
      exact h
    have hidx : i + (p :: rest).length + 1 = i + 1 + rest.length + 1 := by
      simp [List.length_cons]
      omega
    rw [hidx]
    cases hq : processElement sel i p with
    | error err =>
      simp only [List.cons_append, scanFrom, hq]
      exact ih (i + 1) acc h'
    | ok f? =>
      cases f? with
      | none =>
        simp only [List.cons_append, scanFrom, hq]
        exact ih (i + 1) acc h'
      | some f =>
        simp only [List.cons_append, scanFrom, hq]
        exact ih (i + 1) (acc ++ [f]) h'

/-- C3: one failing element is skipped, fields already accumulated are
kept, and the scan continues with the remaining elements; `find_fields` on
a single-selector page is exactly this element loop. -/
theorem find_fields_skips_failing_element :
    (∀ (sel : String) (elems : List RawElement),
      find_fields [(sel, elems)] = scanFrom sel 0 elems []) ∧
    (∀ (sel : String) (i : Nat) (pre : List RawElement) (bad : RawElement)
        (post : List RawElement) (acc : List FormField) (msg : String),
      processElement sel (i + pre.length) bad = .error msg →
      scanFrom sel i (pre ++ bad :: post) acc =
        scanFrom sel (i + pre.length + 1) post (scanFrom sel i pre acc)) := by
  constructor
  · intro sel elems
    rfl
  · intro sel i pre bad post acc msg h
    exact scanFrom_skip_error sel bad post msg pre i acc h

/-- Witness for C3: a scan over `[good, detached, good]` skips exactly the
element whose visibility probe raises, keeping the two good fields. -/
theorem find_fields_skips_failing_element_witness :
    scanFrom "input" 0 ([elemNameOnly] ++ elemDetached :: [elemNameOnly]) [] =
      scanFrom "input" 2 [elemNameOnly] (scanFrom "input" 0 [elemNameOnly] []) :=
  find_fields_skips_failing_element.2 "input" 0 [elemNameOnly] elemDetached
    [elemNameOnly] [] "detached" (by decide)

/-- C9 counterexample: a visible element with an empty DOM id and DOM name
`"email"` is emitted with the synthetic `element_id "field_3"` (its
enumeration index), not with its name — the name-fallback only exists for
the CSS `selector`, not for `element_id`. -/
theorem element_id_ignores_name_counterexample :
    attrsNameOnly.id = "" ∧ attrsNameOnly.name = "email" ∧
    (processElement "input" 3 elemNameOnly).map (fun f? => f?.map FormField.element_id) =
      .ok (some "field_3") ∧
    "field_3" ≠ "email" := by
  refine ⟨rfl, rfl, ?_, by decide⟩
  decide

/-- C9 amended: for every element emitted by the scan, `element_id` is the
DOM id when that is non-empty and otherwise the synthetic index
`field_{i}`; the DOM name participates only in the derived CSS selector
(id-based, else name-based, else positional), never in `element_id`. -/
theorem element_id_from_id_or_index (sel : String) (i : Nat) (e : RawElement)
    (a : RawAttrs) (f : FormField)
    (ha : e.attrs = .ok a)
    (h : processElement sel i e = .ok (some f)) :
    f.element_id = (if a.id ≠ "" then a.id else "field_" ++ toString i) ∧
    f.selector =
      (if a.id ≠ "" then "#" ++ a.id
       else if a.name ≠ "" then a.tagName ++ "[name=\x27" ++ a.name ++ "\x27]"
       else sel ++ ":nth-of-type(" ++ toString (i + 1) ++ ")") := by
  obtain ⟨a', label, ft, box, ha', hf⟩ := processElement_ok_some sel i e f h
  rw [ha] at ha'
  cases ha'
  subst hf
  exact ⟨rfl, rfl⟩

/-- Witness for C9 amended: the element with id `"nextbtn"` keeps its DOM
id as `element_id` and gets the id-based selector. -/
theorem element_id_from_id_or_index_witness :
    scannedNextButton.element_id = (if "nextbtn" ≠ "" then "nextbtn" else "field_" ++ toString 0) := by
  have h := element_id_from_id_or_index "button" 0 elemNextButton
    { id := "nextbtn", name := "", type := "submit", placeholder := "",
      required := false, ariaLabel := "", className := "", tagName := "button" }
    scannedNextButton rfl (by decide)
  exact h.1

theorem foldl_separateStep_eq (fields : List FormField) :
    ∀ abc : List FormField × List FormField × List FormField,
      fields.foldl separateStep abc =
        (abc.1 ++ fields.filter (fun f => bucketOf f = .inputFld),
         abc.2.1 ++ fields.filter (fun f => bucketOf f = .nextBtn),
         abc.2.2 ++ fields.filter (fun f => bucketOf f = .finalBtn)) := by
  induction fields with
  | nil => intro abc; simp
  | cons f rest ih =>
    intro abc
    simp only [List.foldl_cons]
    rw [ih]
    cases hb : bucketOf f <;> simp [separateStep, hb, List.filter_cons]

theorem separateFields_eq_filter (fields : List FormField) :
    separateFields fields =
      (fields.filter (fun f => bucketOf f = .inputFld),
       fields.filter (fun f => bucketOf f = .nextBtn),
       fields.filter (fun f => bucketOf f = .finalBtn)) := by
  unfold separateFields
  rw [foldl_separateStep_eq]
  simp

theorem processElement_flags_none (sel : String) (i : Nat) (e : RawElement)
    (f : FormField) (h : processElement sel i e = .ok (some f)) :
    f.is_next_button = none ∧ f.is_final_submit = none := by
  obtain ⟨a, label, ft, box, _, hf⟩ := processElement_ok_some sel i e f h
  subst hf
  exact ⟨rfl, rfl⟩

theorem scanFrom_flags_none (sel : String) (elems : List RawElement) :
    ∀ (i : Nat) (acc : List FormField),
      (∀ g ∈ acc, g.is_next_button = none ∧ g.is_final_submit = none) →
      ∀ g ∈ scanFrom sel i elems acc,
        g.is_next_button = none ∧ g.is_final_submit = none := by
  induction elems with
  | nil =>
    intro i acc hacc
    simpa [scanFrom] using hacc
  | cons e rest ih =>
    intro i acc hacc g hg
    rw [scanFrom] at hg
    revert hg
    cases hq : processElement sel i e with
    | error err =>
      intro hg
      exact ih (i + 1) acc hacc g hg
    | ok f? =>
      cases f? with
      | none =>
        intro hg
        exact ih (i + 1) acc hacc g hg
      | some f =>
        intro hg
        refine ih (i + 1) (acc ++ [f]) ?_ g hg
        intro x hx
        rcases List.mem_append.mp hx with hx | hx
        · exact hacc x hx
        · rw [List.mem_singleton.mp hx]
          exact processElement_flags_none sel i e f hq

theorem find_fields_flags_none (page : List (String × List RawElement)) :
    ∀ g ∈ find_fields page,
      g.is_next_button = none ∧ g.is_final_submit = none := by
  suffices h : ∀ (acc : List FormField),
      (∀ g ∈ acc, g.is_next_button = none ∧ g.is_final_submit = none) →
      ∀ g ∈ page.foldl (fun acc p => scanFrom p.1 0 p.2 acc) acc,
        g.is_next_button = none ∧ g.is_final_submit = none by
    exact h [] (by simp)
  induction page with
  | nil => intro acc hacc; simpa using hacc
  | cons p rest ih =>
    intro acc hacc
    simp only [List.foldl_cons]
    exact ih (scanFrom p.1 0 p.2 acc) (scanFrom_flags_none p.1 p.2 0 acc hacc)

/-- C4: a scanned submit/button field lands in at most one of the
`next_buttons` / `final_submit_buttons` buckets of the separation loop:
a next-indicator keyword in its lowercased label or name sends it only to
`next_buttons`; otherwise a final-indicator keyword sends it only to
`final_submit_buttons`; with neither it is excluded from both — and a
button-typed field is never placed in `input_fields`. -/
theorem button_bucketing_exclusive (page : List (String × List RawElement))
    (f : FormField)
    (hmem : f ∈ find_fields page)
    (hbtn : f.field_type = .submit ∨ f.field_type = .button) :
    (hasNextKeyword f = true →
      f ∈ (separateFields (find_fields page)).2.1 ∧
      f ∉ (separateFields (find_fields page)).2.2 ∧
      f ∉ (separateFields (find_fields page)).1) ∧
    (hasNextKeyword f = false → hasFinalKeyword f = true →
      f ∈ (separateFields (find_fields page)).2.2 ∧
      f ∉ (separateFields (find_fields page)).2.1 ∧
      f ∉ (separateFields (find_fields page)).1) ∧
    (hasNextKeyword f = false → hasFinalKeyword f = false →
      f ∉ (separateFields (find_fields page)).2.1 ∧
      f ∉ (separateFields (find_fields page)).2.2 ∧
      f ∉ (separateFields (find_fields page)).1) ∧
    ¬(f ∈ (separateFields (find_fields page)).2.1 ∧
      f ∈ (separateFields (find_fields page)).2.2) := by
  have hflags := find_fields_flags_none page f hmem
  have hfl : (f.is_next_button = some true) = False := by
    simp [hflags.1]
  have hfs : (f.is_final_submit = some true) = False := by
    simp [hflags.2]
  rw [separateFields_eq_filter]
  simp only [List.mem_filter]
  have hbucket :
      bucketOf f =
        (if hasNextKeyword f then .nextBtn
         else if hasFinalKeyword f then .finalBtn else .otherBtn) := by
    unfold bucketOf
    rw [if_pos hbtn]
    simp [hfl, hfs]
  refine ⟨?_, ?_, ?_, ?_⟩
  · intro hnext
    have hb : bucketOf f = .nextBtn := by rw [hbucket, if_pos hnext]
    exact ⟨⟨hmem, by simp [hb]⟩, fun hcon => by simp [hb] at hcon,
      fun hcon => by simp [hb] at hcon⟩
  · intro hnext hfin
    have hb : bucketOf f = .finalBtn := by
      rw [hbucket, if_neg (by simp [hnext]), if_pos hfin]
    exact ⟨⟨hmem, by simp [hb]⟩, fun hcon => by simp [hb] at hcon,
      fun hcon => by simp [hb] at hcon⟩
  · intro hnext hfin
    have hb : bucketOf f = .otherBtn := by
      rw [hbucket, if_neg (by simp [hnext]), if_neg (by simp [hfin])]
    exact ⟨fun hcon => by simp [hb] at hcon, fun hcon => by simp [hb] at hcon,
      fun hcon => by simp [hb] at hcon⟩
  · intro ⟨h1, h2⟩
    have e1 := h1.2
    have e2 := h2.2
    simp at e1 e2
    rw [e1] at e2
    exact absurd e2 (by decide)

/-- Witness for C4: the scanned "Next" button carries a next-indicator
keyword, joins `next_buttons`, and stays out of `input_fields`. -/
theorem button_bucketing_exclusive_witness :
    hasNextKeyword scannedNextButton = true ∧
    scannedNextButton ∈ (separateFields (find_fields pageNextButton)).2.1 ∧
    scannedNextButton ∉ (separateFields (find_fields pageNextButton)).1 := by
  have h := (button_bucketing_exclusive pageNextButton scannedNextButton
    (by decide) (Or.inl rfl)).1 (by decide)
  exact ⟨by decide, h.1, h.2.2⟩

theorem finishRun_steps (m s : Nat) (a b c : List String) :
    (finishRun m s a b c).steps_processed = some s := rfl

theorem finishRun_msg_mem (m s : Nat) (a b c : List String) (h : m ≤ s) :
    maxStepsMsg m ∈ (finishRun m s a b c).errors := by
  unfold finishRun
  simp [h]

/-- One unfolding of the loop body (pure definitional rewriting). -/
theorem runSteps_succ (env : Nat → StepData) (data : List (String × String))
    (maxSteps fuel step : Nat) (filled failed errors : List String) :
    runSteps env data maxSteps (fuel + 1) step filled failed errors =
      (if (env (step + 1)).fields.isEmpty then
        (if step + 1 = 1 then
          { success := false, filled_fields := [], failed_fields := [],
            errors := ["No form fields found on the page"],
            steps_processed := none }
        else finishRun maxSteps (step + 1) filled failed errors)
      else
        (if !((env (step + 1)).fields.filter
            (fun f => f.is_next_button = some true)).isEmpty then
          runSteps env data maxSteps fuel (step + 1)
            (filled ++ (fill_form_fields (env (step + 1)).fields data
              (env (step + 1)).agent).filled_fields)
            (failed ++ (fill_form_fields (env (step + 1)).fields data
              (env (step + 1)).agent).failed_fields)
            (errors ++ (fill_form_fields (env (step + 1)).fields data
              (env (step + 1)).agent).errors)
        else
          finishRun maxSteps (step + 1)
            (filled ++ (fill_form_fields (env (step + 1)).fields data
              (env (step + 1)).agent).filled_fields)
            (failed ++ (fill_form_fields (env (step + 1)).fields data
              (env (step + 1)).agent).failed_fields)
            (errors ++ (fill_form_fields (env (step + 1)).fields data
              (env (step + 1)).agent).errors))) := rfl

theorem runSteps_step_bound (env : Nat → StepData) (data : List (String × String))
    (maxSteps : Nat) :
    ∀ (fuel step : Nat) (filled failed errors : List String),
      (∀ n,
        (runSteps env data maxSteps fuel step filled failed errors).steps_processed = some n →
        n ≤ step + fuel ∧
        (maxSteps ≤ n →
          maxStepsMsg maxSteps ∈
            (runSteps env data maxSteps fuel step filled failed errors).errors)) ∧
      ((runSteps env data maxSteps fuel step filled failed errors).steps_processed = none →
        1 ≤ fuel) := by
  intro fuel
  induction fuel with
  | zero =>
    intro step filled failed errors
    refine ⟨?_, ?_⟩
    · intro n hn
      have hs : (runSteps env data maxSteps 0 step filled failed errors).steps_processed
          = some step := rfl
      rw [hs] at hn
      injection hn with h
      subst h
      exact ⟨by omega, fun hm => finishRun_msg_mem maxSteps step filled failed errors hm⟩
    · intro hnone
      have hs : (runSteps env data maxSteps 0 step filled failed errors).steps_processed
          = some step := rfl
      rw [hs] at hnone
      exact absurd hnone (by simp)
  | succ fuel ih =>
    intro step filled failed errors
    rw [runSteps_succ]
    by_cases hempty : (env (step + 1)).fields.isEmpty = true
    · rw [if_pos hempty]
      by_cases hone : step + 1 = 1
      · rw [if_pos hone]
        exact ⟨fun n hn => absurd hn (by simp), fun _ => by omega⟩
      · rw [if_neg hone]
        refine ⟨?_, ?_⟩
        · intro n hn
          rw [finishRun_steps] at hn
          injection hn with h
          subst h
          exact ⟨by omega,
            fun hm => finishRun_msg_mem maxSteps (step + 1) filled failed errors hm⟩
        · intro hnone
          exact absurd hnone (by simp [finishRun])
    · rw [if_neg hempty]
      by_cases hnext :
        ((env (step + 1)).fields.filter (fun f => f.is_next_button = some true)).isEmpty = true
      · rw [if_neg (by simp [hnext])]
        refine ⟨?_, ?_⟩
        · intro n hn
          rw [finishRun_steps] at hn
          injection hn with h
          subst h
          exact ⟨by omega, fun hm => finishRun_msg_mem maxSteps (step + 1) _ _ _ hm⟩
        · intro hnone
          exact absurd hnone (by simp [finishRun])
      · have hfalse : ((env (step + 1)).fields.filter
            (fun f => f.is_next_button = some true)).isEmpty = false := by
          revert hnext
          cases ((env (step + 1)).fields.filter
            (fun f => f.is_next_button = some true)).isEmpty <;> simp
        rw [if_pos (by simp [hfalse])]
        refine ⟨?_, fun _ => by omega⟩
        intro n hn
        have h := (ih (step + 1) _ _ _).1 n hn
        exact ⟨by omega, h.2⟩

/-- C1: the scanning loop body runs at most `max_steps` times
(`steps_processed`, when reported, counts the passes and never exceeds
`max_steps`; the step-1 early return, the only result without
`steps_processed`, needs at least one pass, so `max_steps ≥ 1` there); a
run that ends with the counter at `max_steps` carries the "Reached maximum
steps" notice in `errors`; and the run always returns the accumulated
result record rather than failing or looping. -/
theorem traversal_step_cap (env : Nat → StepData) (data : List (String × String))
    (maxSteps : Nat) :
    (∀ n, (fill_form_from_url env data maxSteps).steps_processed = some n →
      n ≤ maxSteps) ∧
    ((fill_form_from_url env data maxSteps).steps_processed = some maxSteps →
      maxStepsMsg maxSteps ∈ (fill_form_from_url env data maxSteps).errors) ∧
    ((fill_form_from_url env data maxSteps).steps_processed = none → 1 ≤ maxSteps) := by
  have h := runSteps_step_bound env data maxSteps maxSteps 0 [] [] []
  refine ⟨?_, ?_, h.2⟩
  · intro n hn
    have := (h.1 n hn).1
    omega
  · intro hn
    exact (h.1 maxSteps hn).2 le_rfl

/-- Witness for C1: an environment whose every page has a flagged next
button drives the run to the cap: with `max_steps = 3` the step-limit
notice is in `errors` and the reported step count obeys the bound. -/
theorem traversal_step_cap_witness :
    maxStepsMsg 3 ∈ (fill_form_from_url envLoop [] 3).errors ∧ 3 ≤ 3 :=
  ⟨(traversal_step_cap envLoop [] 3).2.1 (by decide),
   (traversal_step_cap envLoop [] 3).1 3 (by decide)⟩

/-- C7: zero fields on step 1 ends the run with `success = false`, the
"No form fields found on the page" error, empty filled/failed lists (and
no step count in the result dict); zero fields on a later step makes the
loop break and return the results accumulated from the earlier steps. -/
theorem zero_fields_termination (env : Nat → StepData) (data : List (String × String))
    (maxSteps : Nat) :
    (1 ≤ maxSteps → (env 1).fields = [] →
      fill_form_from_url env data maxSteps =
        { success := false, filled_fields := [], failed_fields := [],
          errors := ["No form fields found on the page"],
          steps_processed := none }) ∧
    (∀ (fuel step : Nat) (filled failed errors : List String),
      step ≠ 0 → (env (step + 1)).fields = [] →
      runSteps env data maxSteps (fuel + 1) step filled failed errors =
        finishRun maxSteps (step + 1) filled failed errors) := by
  constructor
  · intro hmax hemp
    obtain ⟨m, rfl⟩ : ∃ m, maxSteps = m + 1 := ⟨maxSteps - 1, by omega⟩
    show runSteps env data (m + 1) (m + 1) 0 [] [] [] = _
    simp [runSteps, hemp]
  · intro fuel step filled failed errors hstep hemp
    have h1 : ¬(step + 1 = 1) := by omega
    simp [runSteps, hemp, h1]

/-- Witness for C7: the all-empty environment fails on step 1; a later
step with no fields returns the accumulated lists through the normal
loop exit. -/
theorem zero_fields_termination_witness :
    fill_form_from_url envEmpty [] 5 =
      { success := false, filled_fields := [], failed_fields := [],
        errors := ["No form fields found on the page"],
        steps_processed := none } ∧
    runSteps envEmpty [] 5 (3 + 1) 1 ["f1"] [] [] = finishRun 5 (1 + 1) ["f1"] [] [] :=
  ⟨(zero_fields_termination envEmpty [] 5).1 (by omega) rfl,
   (zero_fields_termination envEmpty [] 5).2 3 1 ["f1"] [] [] (by decide) rfl⟩

theorem runSteps_success_flag (env : Nat → StepData) (data : List (String × String))
    (maxSteps : Nat) :
    ∀ (fuel step : Nat) (filled failed errors : List String),
      (runSteps env data maxSteps fuel step filled failed errors).success =
        (decide (0 < (runSteps env data maxSteps fuel step filled failed errors).filled_fields.length) &&
         decide ((runSteps env data maxSteps fuel step filled failed errors).failed_fields.length = 0)) := by
  intro fuel
  induction fuel with
  | zero =>
    intro step filled failed errors
    rfl
  | succ fuel ih =>
    intro step filled failed errors
    rw [runSteps_succ]
    by_cases hempty : (env (step + 1)).fields.isEmpty = true
    · rw [if_pos hempty]
      by_cases hone : step + 1 = 1
      · rw [if_pos hone]
        rfl
      · rw [if_neg hone]
        rfl
    · rw [if_neg hempty]
      by_cases hnext :
        ((env (step + 1)).fields.filter (fun f => f.is_next_button = some true)).isEmpty = true
      · rw [if_neg (by simp [hnext])]
        rfl
      · have hfalse : ((env (step + 1)).fields.filter
            (fun f => f.is_next_button = some true)).isEmpty = false := by
          revert hnext
          cases ((env (step + 1)).fields.filter
            (fun f => f.is_next_button = some true)).isEmpty <;> simp
        rw [if_pos (by simp [hfalse])]
        exact ih (step + 1) _ _ _

/-- C8: a result's `success` flag equals
`len(filled_fields) > 0 and len(failed_fields) == 0`, both for every
single-page `fill_form_fields` result and for every full
`fill_form_from_url` run over the accumulated lists. -/
theorem success_flag_conjunction (fields : List FormField)
    (data : List (String × String)) (agent : Except String String)
    (env : Nat → StepData) (maxSteps : Nat) :
    (fill_form_fields fields data agent).success =
      (decide (0 < (fill_form_fields fields data agent).filled_fields.length) &&
       decide ((fill_form_fields fields data agent).failed_fields.length = 0)) ∧
    (fill_form_from_url env data maxSteps).success =
      (decide (0 < (fill_form_from_url env data maxSteps).filled_fields.length) &&
       decide ((fill_form_from_url env data maxSteps).failed_fields.length = 0)) := by
  constructor
  · unfold fill_form_fields
    by_cases hin : (separateFields fields).1.isEmpty
    · simp [hin]
    · cases agent with
      | error e => simp [hin]
      | ok output => simp only [hin, Bool.false_eq_true, if_false]
  · exact runSteps_success_flag env data maxSteps maxSteps 0 [] [] []

end JobFinder
